import Mathlib

/-!
Verification of the AI-Doc symptom-checker core against its specification.

The development shallowly embeds the three source files:
  * `App` (the React component): session state, history handling, the
    disclaimer gate, the startup `useEffect`, and `handleDiagnosis`;
  * `services/gemini.ts`: `getDiagnosis`, which forwards the raw call
    outcome through `JSON.parse(response.text || "\x7b\x7d")`;
  * `types.ts`: `SymptomEntry` (the persisted history record).

JavaScript's `JSON.parse` / `JSON.stringify` are modelled by an executable
JSON value type with a fuel-indexed parser and a serializer.  The number
grammar is simplified to an optional minus sign followed by decimal digits
(fractions, exponents and the leading-zero restriction are omitted): every
number the program itself serializes is a natural-number timestamp, and no
claim depends on numeric fidelity beyond integers.  Parsing any input with
a fraction or exponent is rejected rather than silently misread.
-/

/-- JSON values as produced by `JSON.parse`.  Object fields keep their
textual order, matching JavaScript property insertion order. -/
inductive Json where
  | null : Json
  | bool (b : Bool) : Json
  | num (n : Int) : Json
  | str (s : String) : Json
  | arr (elems : List Json) : Json
  | obj (fields : List (String × Json)) : Json

/-- The double-quote character. -/
def quoteChar : Char := Char.ofNat 34

/-- The backslash character. -/
def backslashChar : Char := Char.ofNat 92

/-- The opening-brace character. -/
def lbraceChar : Char := Char.ofNat 123

/-- The closing-brace character. -/
def rbraceChar : Char := Char.ofNat 125

/-- The opening-bracket character. -/
def lbrackChar : Char := Char.ofNat 91

/-- The closing-bracket character. -/
def rbrackChar : Char := Char.ofNat 93

/-- The colon character. -/
def colonChar : Char := Char.ofNat 58

/-- The comma character. -/
def commaChar : Char := Char.ofNat 44

/-- JSON insignificant whitespace: space, tab, line feed, carriage return. -/
def isWsChar (c : Char) : Bool :=
  c = ' ' || c = '\t' || c = '\n' || c = '\r'

/-- Drop leading JSON whitespace. -/
def skipWs : List Char → List Char
  | [] => []
  | c :: cs => if isWsChar c then skipWs cs else c :: cs

/-- Value of a hexadecimal digit, if the character is one. -/
def hexVal (c : Char) : Option Nat :=
  if '0' ≤ c ∧ c ≤ '9' then some (c.toNat - 48)
  else if 'a' ≤ c ∧ c ≤ 'f' then some (c.toNat - 87)
  else if 'A' ≤ c ∧ c ≤ 'F' then some (c.toNat - 55)
  else none

/-- Parse the body of a JSON string literal (the opening quote already
consumed), returning the decoded string and the remaining input. -/
def parseStringBody (acc : List Char) : List Char → Except String (String × List Char)
  | [] => .error "unterminated string"
  | c :: cs =>
    if c = quoteChar then .ok (String.mk acc.reverse, cs)
    else if c = backslashChar then
      match cs with
      | [] => .error "unterminated escape"
      | e :: cs2 =>
        if e = quoteChar then parseStringBody (quoteChar :: acc) cs2
        else if e = backslashChar then parseStringBody (backslashChar :: acc) cs2
        else if e = '/' then parseStringBody ('/' :: acc) cs2
        else if e = 'n' then parseStringBody ('\n' :: acc) cs2
        else if e = 't' then parseStringBody ('\t' :: acc) cs2
        else if e = 'r' then parseStringBody ('\r' :: acc) cs2
        else if e = 'b' then parseStringBody (Char.ofNat 8 :: acc) cs2
        else if e = 'f' then parseStringBody (Char.ofNat 12 :: acc) cs2
        else if e = 'u' then
          match cs2 with
          | h1 :: h2 :: h3 :: h4 :: cs3 =>
            match hexVal h1, hexVal h2, hexVal h3, hexVal h4 with
            | some a, some b, some c3, some d =>
              parseStringBody (Char.ofNat (a * 4096 + b * 256 + c3 * 16 + d) :: acc) cs3
            | _, _, _, _ => .error "invalid unicode escape"
          | _ => .error "invalid unicode escape"
        else .error "invalid escape"
    else parseStringBody (c :: acc) cs

/-- Numeric value of a run of decimal digits, accumulator style. -/
def digitsToNat (acc : Nat) : List Char → Nat
  | [] => acc
  | c :: cs => digitsToNat (acc * 10 + (c.toNat - 48)) cs

/-- Split off the leading run of decimal digits. -/
def takeDigits : List Char → List Char × List Char
  | [] => ([], [])
  | c :: cs =>
    if c.isDigit then
      let p := takeDigits cs
      (c :: p.1, p.2)
    else ([], c :: cs)

/-- Parse a JSON number token (integer grammar; fractions and exponents
are rejected rather than misread, see module comment). -/
def parseNumberToken (cs : List Char) : Except String (Json × List Char) :=
  match cs with
  | [] => .error "invalid number"
  | c :: rest =>
    if c = '-' then
      let p := takeDigits rest
      if p.1.isEmpty then .error "invalid number"
      else if p.2.head? = some '.' ∨ p.2.head? = some 'e' ∨ p.2.head? = some 'E' then
        .error "unsupported number form"
      else .ok (Json.num (-(Int.ofNat (digitsToNat 0 p.1))), p.2)
    else
      let p := takeDigits (c :: rest)
      if p.1.isEmpty then .error "invalid number"
      else if p.2.head? = some '.' ∨ p.2.head? = some 'e' ∨ p.2.head? = some 'E' then
        .error "unsupported number form"
      else .ok (Json.num (Int.ofNat (digitsToNat 0 p.1)), p.2)

/-- Drop an exact sequence of expected characters, or fail. -/
def dropExact : List Char → List Char → Option (List Char)
  | [], cs => some cs
  | _ :: _, [] => none
  | l :: ls, c :: cs => if c = l then dropExact ls cs else none

/-- A partially built JSON container on the parser stack. -/
inductive JFrame where
  | arrF (acc : List Json) : JFrame
  | objF (acc : List (String × Json)) (key : String) : JFrame

/-- The parser main loop: a stack machine over the input characters.
`none` means a value is expected next; `some v` means value `v` was just
completed and is folded into the innermost open container.  Every
recursive call consumes at least one input character, so fuel equal to
the input length plus one never runs out. -/
def parseLoop : Nat → List JFrame → Option Json → List Char → Except String (Json × List Char)
  | 0, _, _, _ => .error "out of fuel"
  | fuel + 1, frames, none, cs =>
    match skipWs cs with
    | [] => .error "unexpected end of input"
    | c :: rest =>
      if c = lbrackChar then
        match skipWs rest with
        | [] => .error "unterminated array"
        | d :: rest2 =>
          if d = rbrackChar then parseLoop fuel frames (some (Json.arr [])) rest2
          else parseLoop fuel (JFrame.arrF [] :: frames) none rest
      else if c = lbraceChar then
        match skipWs rest with
        | [] => .error "unterminated object"
        | d :: rest2 =>
          if d = rbraceChar then parseLoop fuel frames (some (Json.obj [])) rest2
          else if d = quoteChar then
            match parseStringBody [] rest2 with
            | .error e => .error e
            | .ok (key, rest3) =>
              match skipWs rest3 with
              | [] => .error "expected colon"
              | e2 :: rest4 =>
                if e2 = colonChar then
                  parseLoop fuel (JFrame.objF [] key :: frames) none rest4
                else .error "expected colon"
          else .error "expected object key"
      else if c = quoteChar then
        match parseStringBody [] rest with
        | .error e => .error e
        | .ok (s, rest2) => parseLoop fuel frames (some (Json.str s)) rest2
      else if c = 'n' then
        match dropExact ['u', 'l', 'l'] rest with
        | some rest2 => parseLoop fuel frames (some Json.null) rest2
        | none => .error "invalid literal"
      else if c = 't' then
        match dropExact ['r', 'u', 'e'] rest with
        | some rest2 => parseLoop fuel frames (some (Json.bool true)) rest2
        | none => .error "invalid literal"
      else if c = 'f' then
        match dropExact ['a', 'l', 's', 'e'] rest with
        | some rest2 => parseLoop fuel frames (some (Json.bool false)) rest2
        | none => .error "invalid literal"
      else if c = '-' || c.isDigit then
        match parseNumberToken (c :: rest) with
        | .error e => .error e
        | .ok (v, rest2) => parseLoop fuel frames (some v) rest2
      else .error "unexpected character"
  | fuel + 1, frames, some v, cs =>
    match frames with
    | [] => .ok (v, cs)
    | JFrame.arrF acc :: fs =>
      match skipWs cs with
      | [] => .error "unterminated array"
      | c :: rest =>
        if c = commaChar then parseLoop fuel (JFrame.arrF (v :: acc) :: fs) none rest
        else if c = rbrackChar then
          parseLoop fuel fs (some (Json.arr (v :: acc).reverse)) rest
        else .error "expected comma or close bracket"
    | JFrame.objF acc key :: fs =>
      match skipWs cs with
      | [] => .error "unterminated object"
      | c :: rest =>
        if c = commaChar then
          match skipWs rest with
          | [] => .error "unterminated object"
          | d :: rest2 =>
            if d = quoteChar then
              match parseStringBody [] rest2 with
              | .error e => .error e
              | .ok (k2, rest3) =>
                match skipWs rest3 with
                | [] => .error "expected colon"
                | e2 :: rest4 =>
                  if e2 = colonChar then
                    parseLoop fuel (JFrame.objF ((key, v) :: acc) k2 :: fs) none rest4
                  else .error "expected colon"
            else .error "expected object key"
        else if c = rbraceChar then
          parseLoop fuel fs (some (Json.obj ((key, v) :: acc).reverse)) rest
        else .error "expected comma or close brace"

/-- Model of JavaScript `JSON.parse`: parse one value and require only
whitespace after it; any syntax error is a thrown `SyntaxError`. -/
def jsonParse (s : String) : Except String Json :=
  match parseLoop (s.data.length + 1) [] none s.data with
  | .error e => .error e
  | .ok (v, rest) => if (skipWs rest).isEmpty then .ok v else .error "unexpected trailing characters"

example : jsonParse "null" = .ok Json.null := by rfl
example : jsonParse " [1, 2] " = .ok (Json.arr [Json.num 1, Json.num 2]) := by rfl
example : jsonParse "[1," = .error "unexpected end of input" := by rfl
example : jsonParse "not json" = .error "invalid literal" := by rfl
example : jsonParse (String.mk [lbraceChar, rbraceChar]) = .ok (Json.obj []) := by rfl
example : jsonParse "\"a\"" = .ok (Json.str "a") := by rfl

/-- Hexadecimal digit character for a value below 16 (lower case). -/
def hexDigitChar (n : Nat) : Char :=
  if n < 10 then Char.ofNat (48 + n) else Char.ofNat (87 + n)

/-- Escape one character the way `JSON.stringify` quotes string contents:
quote and backslash are escaped, the common control characters use their
short escapes, other control characters use a unicode escape. -/
def escSeq (c : Char) : List Char :=
  if c = quoteChar then [backslashChar, quoteChar]
  else if c = backslashChar then [backslashChar, backslashChar]
  else if c = '\n' then [backslashChar, 'n']
  else if c = '\t' then [backslashChar, 't']
  else if c = '\r' then [backslashChar, 'r']
  else if c = Char.ofNat 8 then [backslashChar, 'b']
  else if c = Char.ofNat 12 then [backslashChar, 'f']
  else if c.toNat < 32 then
    [backslashChar, 'u', '0', '0', hexDigitChar (c.toNat / 16), hexDigitChar (c.toNat % 16)]
  else [c]

/-- Quote a string as a JSON string literal. -/
def jsonQuote (s : String) : String :=
  String.mk (quoteChar :: (s.data.map escSeq).flatten ++ [quoteChar])

mutual

/-- Model of `JSON.stringify` (no indentation argument, as in the source). -/
def jsonStringify : Json → String
  | Json.null => "null"
  | Json.bool true => "true"
  | Json.bool false => "false"
  | Json.num n => toString n
  | Json.str s => jsonQuote s
  | Json.arr l => "[" ++ stringifyItems l ++ "]"
  | Json.obj fs => String.mk [lbraceChar] ++ stringifyFields fs ++ String.mk [rbraceChar]

/-- Comma-separated serialization of array elements. -/
def stringifyItems : List Json → String
  | [] => ""
  | [x] => jsonStringify x
  | x :: y :: r => jsonStringify x ++ "," ++ stringifyItems (y :: r)

/-- Comma-separated serialization of object fields, in stored order. -/
def stringifyFields : List (String × Json) → String
  | [] => ""
  | [(k, v)] => jsonQuote k ++ ":" ++ jsonStringify v
  | (k, v) :: y :: r => jsonQuote k ++ ":" ++ jsonStringify v ++ "," ++ stringifyFields (y :: r)

end

/-- Whitespace for JavaScript `String.prototype.trim`: tab, line feed,
vertical tab, form feed, carriage return, space, no-break space, line and
paragraph separators, and the byte-order mark (the rarer Unicode `Zs`
members are omitted; no claim depends on them). -/
def isJsWsChar (c : Char) : Bool :=
  c.toNat = 9 || c.toNat = 10 || c.toNat = 11 || c.toNat = 12 || c.toNat = 13 ||
  c.toNat = 32 || c.toNat = 160 || c.toNat = 8232 || c.toNat = 8233 || c.toNat = 65279

/-- Drop leading JavaScript whitespace characters. -/
def dropWsLeft : List Char → List Char
  | [] => []
  | c :: cs => if isJsWsChar c then dropWsLeft cs else c :: cs

/-- Model of JavaScript `String.prototype.trim`. -/
def jsTrim (s : String) : String :=
  String.mk (dropWsLeft ((dropWsLeft s.data.reverse).reverse))

example : jsTrim "  cough  " = "cough" := by rfl
example : jsTrim "   " = "" := by rfl

/-- Failures thrown out of `getDiagnosis`: either the awaited external
call rejected (its error propagates unchanged, the `try` block only
guards the parse), or the parse failed and the generic analysis error
was thrown. -/
inductive DiagnosisFailure where
  | callError (e : String) : DiagnosisFailure
  | analysisFailed (msg : String) : DiagnosisFailure

/-- Message of the generic error thrown on a parse failure in
`getDiagnosis`. -/
def analysisFailedMessage : String := "Failed to analyze symptoms. Please try again."

/-- The text actually handed to `JSON.parse`: the source evaluates
`response.text || "\x7b\x7d"`, so an absent (`undefined`) or empty —
hence falsy — response text is replaced by the two-character text of an
empty JSON object. -/
def effectiveResponseText (t : Option String) : String :=
  match t with
  | none => String.mk [lbraceChar, rbraceChar]
  | some s => if s = "" then String.mk [lbraceChar, rbraceChar] else s

/-- Embedding of `getDiagnosis` (services/gemini.ts).  Its input is the
outcome of the single awaited `ai.models.generateContent` call: `.error`
when that promise rejected, `.ok t` when it resolved with response text
`t` (`none` for `undefined`).  Exactly one call outcome is consumed —
the source contains no retry.  The parsed JSON value is returned as-is,
cast to `DiagnosisResult` with no structural validation. -/
def getDiagnosis (callResult : Except String (Option String)) : Except DiagnosisFailure Json :=
  match callResult with
  | .error e => .error (.callError e)
  | .ok t =>
    match jsonParse (effectiveResponseText t) with
    | .ok v => .ok v
    | .error _ => .error (.analysisFailed analysisFailedMessage)

/-- History record from types.ts.  The `result` field is typed
`DiagnosisResult` in the source, but the value stored at run time is
whatever JSON `getDiagnosis` returned (no validation happens), so it is
modelled as a JSON value. -/
structure SymptomEntry where
  id : String
  timestamp : Nat
  symptoms : String
  result : Json

/-- The JSON value `JSON.stringify` sees for a `SymptomEntry` object
literal: fields in insertion order `id`, `timestamp`, `symptoms`,
`result`. -/
def encodeEntry (e : SymptomEntry) : Json :=
  Json.obj [("id", Json.str e.id), ("timestamp", Json.num (Int.ofNat e.timestamp)),
            ("symptoms", Json.str e.symptoms), ("result", e.result)]

/-- The two localStorage keys the app uses.  `none` models an absent key
(`getItem` returning `null`). -/
structure LocalStorage where
  aidoc_history : Option String
  aidoc_disclaimer_accepted : Option String

/-- Storage with both keys absent (first run on a device). -/
def emptyStorage : LocalStorage :=
  { aidoc_history := none, aidoc_disclaimer_accepted := none }

/-- The `App` component state: the six `useState` slots plus the storage
it writes through.  `history` is typed `SymptomEntry[]` in the source,
but the startup load assigns `JSON.parse` output without validation, so
the run-time value is an arbitrary JSON value; submissions always keep
it an array of encoded entries. -/
structure AppState where
  symptoms : String
  isLoading : Bool
  result : Option Json
  history : Json
  showDisclaimer : Bool
  hasAcceptedDisclaimer : Bool
  storage : LocalStorage

/-- The state of a freshly rendered `App` before the startup effect runs:
the `useState` initial values. -/
def initialAppState (ls : LocalStorage) : AppState :=
  { symptoms := "", isLoading := false, result := none, history := Json.arr [],
    showDisclaimer := true, hasAcceptedDisclaimer := false, storage := ls }

/-- JavaScript array spread `[x, ...history]` of a JSON value: arrays
yield their elements, strings are iterable and yield their characters,
anything else throws a `TypeError` (modelled as `none`, caught by the
surrounding `try`). -/
def jsonSpreadList : Json → Option (List Json)
  | Json.arr l => some l
  | Json.str s => some (s.data.map fun c => Json.str (String.mk [c]))
  | _ => none

/-- Observable side effects of one submission attempt: the argument of
the `getDiagnosis` call if one was made, and the `alert` message if one
was shown. -/
structure SubmitObs where
  clientCall : Option String
  alertMsg : Option String

/-- No call, no alert. -/
def noObs : SubmitObs := { clientCall := none, alertMsg := none }

/-- Message of the `alert` shown in the `catch` branch of
`handleDiagnosis`. -/
def analysisAlertMessage : String := "An error occurred during analysis. Please try again."

/-- Embedding of `handleDiagnosis` (App).  `freshId` and `now` stand for
`crypto.randomUUID()` and `Date.now()`; `outcome` is the settled result
of the awaited `getDiagnosis(symptoms)` call.  The guard
`if (!symptoms.trim()) return` fires exactly when the trimmed text is
empty.  On success the entry is prepended, the list sliced to 10 and
persisted; on failure the `catch` alerts and the `finally` clears the
loading flag, touching nothing else. -/
def handleDiagnosis (s : AppState) (freshId : String) (now : Nat)
    (outcome : Except String Json) : AppState × SubmitObs :=
  if jsTrim s.symptoms = "" then (s, noObs)
  else
    match outcome with
    | .error _ =>
      ({ s with isLoading := false },
       { clientCall := some s.symptoms, alertMsg := some analysisAlertMessage })
    | .ok data =>
      match jsonSpreadList s.history with
      | none =>
        ({ s with result := some data, isLoading := false },
         { clientCall := some s.symptoms, alertMsg := some analysisAlertMessage })
      | some l =>
        let newEntry : SymptomEntry :=
          { id := freshId, timestamp := now, symptoms := s.symptoms, result := data }
        let updatedHistory := (encodeEntry newEntry :: l).take 10
        ({ s with result := some data,
                  history := Json.arr updatedHistory,
                  isLoading := false,
                  storage := { s.storage with
                               aidoc_history := some (jsonStringify (Json.arr updatedHistory)) } },
         { clientCall := some s.symptoms, alertMsg := none })

/-- The `disabled` predicate of the submit button:
`isLoading || !symptoms.trim()`. -/
def submitDisabled (s : AppState) : Bool :=
  s.isLoading || jsTrim s.symptoms = ""

/-- A user-level submission attempt.  The form's only submit control
carries `disabled={isLoading || !symptoms.trim()}`; a disabled default
button blocks both click and implicit (Enter-key) form submission, so
`handleDiagnosis` is dispatched exactly when the button is enabled. -/
def submit (s : AppState) (freshId : String) (now : Nat)
    (outcome : Except String Json) : AppState × SubmitObs :=
  if submitDisabled s then (s, noObs) else handleDiagnosis s freshId now outcome

/-- Embedding of the history half of the startup `useEffect` (App lines
42-45): read `aidoc_history`; the `if (savedHistory)` truthiness check
skips both an absent key and an empty string, leaving the initial empty
history; otherwise `JSON.parse(savedHistory)` runs unguarded, so a parse
failure is an uncaught exception (`.error`). -/
def loadHistory (stored : Option String) : Except String Json :=
  match stored with
  | none => .ok (Json.arr [])
  | some raw => if raw = "" then .ok (Json.arr []) else jsonParse raw

/-- Embedding of the whole startup `useEffect`: the history step runs
first and an exception there aborts the effect, so the disclaimer flag
is only examined when the history parse did not throw. -/
def loadEffect (ls : LocalStorage) (s : AppState) : Except String AppState :=
  match
    (match ls.aidoc_history with
     | none => Except.ok s
     | some raw =>
       if raw = "" then Except.ok s
       else
         match jsonParse raw with
         | .ok v => Except.ok { s with history := v }
         | .error e => Except.error e)
  with
  | .error e => .error e
  | .ok s1 =>
    if ls.aidoc_disclaimer_accepted = some "true" then
      .ok { s1 with hasAcceptedDisclaimer := true, showDisclaimer := false }
    else .ok s1

/-- Embedding of `handleAcceptDisclaimer`. -/
def handleAcceptDisclaimer (s : AppState) : AppState :=
  { s with hasAcceptedDisclaimer := true, showDisclaimer := false,
           storage := { s.storage with aidoc_disclaimer_accepted := some "true" } }

/-- One user interaction in a submission sequence: the text typed into
the box, the fresh id and timestamp, and the successful client result. -/
structure SubmitInput where
  sym : String
  freshId : String
  now : Nat
  data : Json

/-- Type the text, then run `handleDiagnosis` with a successful client
outcome. -/
def applySubmit (s : AppState) (i : SubmitInput) : AppState :=
  (handleDiagnosis { s with symptoms := i.sym } i.freshId i.now (.ok i.data)).1

/-- A sequence of successful submissions, oldest first. -/
def runSubmits : AppState → List SubmitInput → AppState
  | s, [] => s
  | s, i :: rest => runSubmits (applySubmit s i) rest

/-- The `SymptomEntry` a successful submission of input `i` constructs. -/
def entryOfInput (i : SubmitInput) : SymptomEntry :=
  { id := i.freshId, timestamp := i.now, symptoms := i.sym, result := i.data }

/-- Whether an `Except` is a success. -/
def exceptIsOk : Except ε α → Bool
  | .ok _ => true
  | .error _ => false

/-- First field with the given name in a field list. -/
def fieldLookup : List (String × Json) → String → Option Json
  | [], _ => none
  | (k, v) :: fs, key => if k = key then some v else fieldLookup fs key

/-- JavaScript property access `j[key]` on a parsed JSON value:
`undefined` (`none`) unless `j` is an object with the field. -/
def jsonObjField (j : Json) (key : String) : Option Json :=
  match j with
  | Json.obj fs => fieldLookup fs key
  | _ => none

/-- Claim C3: for every symptom text that is empty or whitespace-only
after trimming, the submission is a no-op: the handler returns before
any state transition, no call to the Diagnosis Client is made and no
alert is shown; the user-level submit is likewise inert. -/
theorem c3_blank_submit_noop (s : AppState) (freshId : String) (now : Nat)
    (outcome : Except String Json) (h : jsTrim s.symptoms = "") :
    handleDiagnosis s freshId now outcome = (s, noObs) ∧
    submit s freshId now outcome = (s, noObs) := by
  constructor
  · simp [handleDiagnosis, h]
  · simp [submit, submitDisabled, h]

/-- App state with whitespace-only symptom text, for the C3 witness. -/
def c3WitnessState : AppState :=
  { initialAppState emptyStorage with symptoms := "   " }

/-- Witness for C3 at a concrete whitespace-only input. -/
theorem c3_blank_submit_noop_witness :
    handleDiagnosis c3WitnessState "id-a" 5 (.ok Json.null) = (c3WitnessState, noObs) ∧
    submit c3WitnessState "id-a" 5 (.ok Json.null) = (c3WitnessState, noObs) :=
  c3_blank_submit_noop c3WitnessState "id-a" 5 (.ok Json.null) (by decide)

/-- Claim C9: a submission attempt made while the controller is in the
`Loading` state is ignored with no effect: the submit button carries
`disabled={isLoading || !symptoms.trim()}`, so the form is never
dispatched, no state changes and no outbound call is made. -/
theorem c9_loading_submit_ignored (s : AppState) (freshId : String) (now : Nat)
    (outcome : Except String Json) (h : s.isLoading = true) :
    submit s freshId now outcome = (s, noObs) := by
  simp [submit, submitDisabled, h]

/-- App state with a request in flight, for the C9 witness. -/
def c9WitnessState : AppState :=
  { initialAppState emptyStorage with symptoms := "cough", isLoading := true }

/-- Witness for C9 at a concrete loading state. -/
theorem c9_loading_submit_ignored_witness :
    submit c9WitnessState "id-b" 3 (.ok Json.null) = (c9WitnessState, noObs) :=
  c9_loading_submit_ignored c9WitnessState "id-b" 3 (.ok Json.null) rfl

/-- Claim C4: when the Diagnosis Client call fails, the controller
returns to the pre-call state: the displayed result, the history and
the persisted storage are untouched, the loading flag is cleared by the
`finally` block, the failure is surfaced as a non-fatal alert, and if
the pre-call state was not loading the final state equals it exactly. -/
theorem c4_failure_reverts (s : AppState) (freshId : String) (now : Nat) (e : String)
    (h : jsTrim s.symptoms ≠ "") :
    (handleDiagnosis s freshId now (.error e)).1.result = s.result ∧
    (handleDiagnosis s freshId now (.error e)).1.history = s.history ∧
    (handleDiagnosis s freshId now (.error e)).1.storage = s.storage ∧
    (handleDiagnosis s freshId now (.error e)).1.isLoading = false ∧
    (handleDiagnosis s freshId now (.error e)).2.alertMsg = some analysisAlertMessage ∧
    (s.isLoading = false → (handleDiagnosis s freshId now (.error e)).1 = s) := by
  have hds : handleDiagnosis s freshId now (.error e) =
      ({ s with isLoading := false },
       { clientCall := some s.symptoms, alertMsg := some analysisAlertMessage }) := by
    simp [handleDiagnosis, h]
  rw [hds]
  refine ⟨rfl, rfl, rfl, rfl, rfl, ?_⟩
  intro h2
  cases s
  simp_all

/-- App state with a previously displayed result, for the C4 witness. -/
def c4WitnessState : AppState :=
  { initialAppState emptyStorage with symptoms := "cough", result := some (Json.str "previous") }

/-- Witness for C4: a failed call leaves the concrete pre-call state
intact and alerts. -/
theorem c4_failure_reverts_witness :
    (handleDiagnosis c4WitnessState "id-c" 7 (.error "network down")).1 = c4WitnessState ∧
    (handleDiagnosis c4WitnessState "id-c" 7 (.error "network down")).2.alertMsg =
      some analysisAlertMessage :=
  ⟨(c4_failure_reverts c4WitnessState "id-c" 7 "network down" (by decide)).2.2.2.2.2 rfl,
   (c4_failure_reverts c4WitnessState "id-c" 7 "network down" (by decide)).2.2.2.2.1⟩

/-- Claim C7: for every accepted submission, trimming is used only for
the emptiness check: the original untrimmed text is exactly what is
passed to `getDiagnosis` and exactly what the new `SymptomEntry` stores
in its `symptoms` field. -/
theorem c7_untrimmed_text_passed_and_stored (s : AppState) (freshId : String) (now : Nat)
    (outcome : Except String Json) (h : jsTrim s.symptoms ≠ "") :
    (handleDiagnosis s freshId now outcome).2.clientCall = some s.symptoms ∧
    (∀ data l, outcome = Except.ok data → s.history = Json.arr l →
      (handleDiagnosis s freshId now outcome).1.history =
        Json.arr ((encodeEntry { id := freshId, timestamp := now, symptoms := s.symptoms,
                                 result := data } :: l).take 10)) := by
  constructor
  · rcases outcome with e | data
    · simp [handleDiagnosis, if_neg h]
    · rcases hsp : jsonSpreadList s.history with _ | l <;>
        simp [handleDiagnosis, if_neg h, hsp]
  · intro data l hout hl
    subst hout
    simp [handleDiagnosis, if_neg h, hl, jsonSpreadList]

/-- App state whose symptom text has leading and trailing whitespace,
for the C7 witness. -/
def c7WitnessState : AppState :=
  { initialAppState emptyStorage with symptoms := "  chest pain  " }

/-- Witness for C7: the untrimmed text "  chest pain  " is sent and
stored verbatim. -/
theorem c7_untrimmed_text_passed_and_stored_witness :
    (handleDiagnosis c7WitnessState "id-d" 9 (.ok Json.null)).2.clientCall =
      some "  chest pain  " ∧
    (handleDiagnosis c7WitnessState "id-d" 9 (.ok Json.null)).1.history =
      Json.arr [encodeEntry { id := "id-d", timestamp := 9, symptoms := "  chest pain  ",
                              result := Json.null }] :=
  ⟨(c7_untrimmed_text_passed_and_stored c7WitnessState "id-d" 9 (.ok Json.null) (by decide)).1,
   by simpa using
     (c7_untrimmed_text_passed_and_stored c7WitnessState "id-d" 9 (.ok Json.null)
       (by decide)).2 Json.null [] rfl rfl⟩

/-- Claim C10: an external call that succeeds with absent or empty
response text does not fail: the source substitutes the two-character
empty-object text, parses it, and returns the empty object — a value
with none of the required `DiagnosisResult` fields — instead of
raising. -/
theorem c10_empty_response_text_succeeds :
    getDiagnosis (.ok none) = .ok (Json.obj []) ∧
    getDiagnosis (.ok (some "")) = .ok (Json.obj []) ∧
    jsonObjField (Json.obj []) "potentialConditions" = none ∧
    jsonObjField (Json.obj []) "severity" = none ∧
    jsonObjField (Json.obj []) "recommendation" = none ∧
    jsonObjField (Json.obj []) "nextSteps" = none ∧
    jsonObjField (Json.obj []) "disclaimer" = none :=
  ⟨by rfl, by rfl, rfl, rfl, rfl, rfl, rfl⟩

/-- Claim C6: for every non-empty response text that parses as JSON,
`getDiagnosis` returns exactly the parsed JSON value, cast to
`DiagnosisResult` with no structural validation: no field-presence and
no enum-membership checks exist between the parse and the return. -/
theorem c6_parsed_value_returned_unvalidated (s : String) (v : Json)
    (hs : s ≠ "") (h : jsonParse s = .ok v) :
    getDiagnosis (.ok (some s)) = .ok v := by
  simp [getDiagnosis, effectiveResponseText, if_neg hs, h]

/-- Witness for C6: a JSON array — nothing like a `DiagnosisResult` —
is returned as-is. -/
theorem c6_parsed_value_returned_unvalidated_witness :
    getDiagnosis (.ok (some "[0]")) = .ok (Json.arr [Json.num 0]) :=
  c6_parsed_value_returned_unvalidated "[0]" (Json.arr [Json.num 0]) (by decide) (by rfl)

/-- Counterexample to claim C5 as stated: the empty response text is
not valid JSON, yet `getDiagnosis` does not fail on it — the falsy-text
substitution parses the empty-object text instead. -/
theorem c5_counterexample :
    exceptIsOk (jsonParse "") = false ∧
    getDiagnosis (.ok (some "")) = .ok (Json.obj []) :=
  ⟨by rfl, by rfl⟩

/-- Claim C5 as amended: `getDiagnosis` fails exactly when the external
call errors or the response text is present, non-empty and not valid
JSON; a parse failure is caught and re-raised as the single generic
analysis failure.  (Absent or empty text is excluded: it is replaced by
the empty-object text before parsing.) -/
theorem c5_failure_condition_amended (callResult : Except String (Option String)) :
    (exceptIsOk (getDiagnosis callResult) = false ↔
      (∃ e, callResult = .error e) ∨
      (∃ s, callResult = .ok (some s) ∧ s ≠ "" ∧ exceptIsOk (jsonParse s) = false)) ∧
    (∀ s pe, callResult = .ok (some s) → s ≠ "" → jsonParse s = .error pe →
      getDiagnosis callResult = .error (.analysisFailed analysisFailedMessage)) := by
  constructor
  · rcases callResult with e | t
    · simp [getDiagnosis, exceptIsOk]
    · rcases t with _ | s
      · simp [getDiagnosis, effectiveResponseText]
        rcases h : jsonParse (String.mk [lbraceChar, rbraceChar]) with e | v
        · exact absurd h (by rw [show jsonParse (String.mk [lbraceChar, rbraceChar]) =
            .ok (Json.obj []) from rfl]; intro hc; cases hc)
        · simp [exceptIsOk]
      · by_cases hs : s = ""
        · subst hs
          simp [getDiagnosis, effectiveResponseText, exceptIsOk]
          rcases h : jsonParse (String.mk [lbraceChar, rbraceChar]) with e | v
          · exact absurd h (by rw [show jsonParse (String.mk [lbraceChar, rbraceChar]) =
              .ok (Json.obj []) from rfl]; intro hc; cases hc)
          · simp [exceptIsOk]
        · simp only [getDiagnosis, effectiveResponseText, if_neg hs]
          rcases h : jsonParse s with e | v
          · simp [exceptIsOk, hs, h]
          · simp [exceptIsOk, hs, h]
  · intro s pe hcall hs hparse
    subst hcall
    simp [getDiagnosis, effectiveResponseText, if_neg hs, hparse]

/-- Witness for the amended C5: a concrete non-JSON response text makes
`getDiagnosis` throw the generic analysis error. -/
theorem c5_failure_condition_amended_witness :
    getDiagnosis (.ok (some "not json")) = .error (.analysisFailed analysisFailedMessage) :=
  (c5_failure_condition_amended (.ok (some "not json"))).2 "not json" "invalid literal"
    rfl (by decide) (by rfl)

/-- Counterexample to claim C2 as stated: a malformed (truncated)
persisted history value makes the startup load raise — the
`JSON.parse(savedHistory)` call in the effect is not wrapped in any
`try`/`catch`, so the parse error escapes to the caller instead of
being treated as an empty history. -/
theorem c2_counterexample :
    loadHistory (some "[1,") = .error "unexpected end of input" ∧
    exceptIsOk (loadHistory (some "[1,")) = false :=
  ⟨by rfl, by rfl⟩

/-- Claim C2 as amended: an absent (or empty, hence falsy) persisted
value leaves the history empty without raising, and any other persisted
value behaves exactly as the unguarded `JSON.parse`: valid JSON is
returned unvalidated, malformed JSON raises out of the startup effect. -/
theorem c2_load_behavior_amended :
    loadHistory none = .ok (Json.arr []) ∧
    loadHistory (some "") = .ok (Json.arr []) ∧
    (∀ raw, raw ≠ "" → loadHistory (some raw) = jsonParse raw) := by
  refine ⟨rfl, rfl, ?_⟩
  intro raw h
  simp [loadHistory, h]

/-- Witness for the amended C2 at a concrete valid persisted value. -/
theorem c2_load_behavior_amended_witness :
    loadHistory (some "[]") = jsonParse "[]" :=
  c2_load_behavior_amended.2.2 "[]" (by decide)

/-- Claim C8: the disclaimer gate lifecycle.  On a fresh session with no
persisted flag the gate is visible and not accepted; `accept` persists
the string "true" and hides the gate; a fresh session whose load sees
the flag "true" starts hidden and accepted.  The load hypotheses require
the startup effect not to have thrown while parsing history, which is
the only way the disclaimer step is reached. -/
theorem c8_disclaimer_gate_lifecycle :
    (∀ ls s1, ls.aidoc_disclaimer_accepted = none →
      loadEffect ls (initialAppState ls) = .ok s1 →
      s1.showDisclaimer = true ∧ s1.hasAcceptedDisclaimer = false) ∧
    (∀ s, (handleAcceptDisclaimer s).storage.aidoc_disclaimer_accepted = some "true" ∧
      (handleAcceptDisclaimer s).showDisclaimer = false ∧
      (handleAcceptDisclaimer s).hasAcceptedDisclaimer = true) ∧
    (∀ ls s1, ls.aidoc_disclaimer_accepted = some "true" →
      loadEffect ls (initialAppState ls) = .ok s1 →
      s1.showDisclaimer = false ∧ s1.hasAcceptedDisclaimer = true) := by
  refine ⟨?_, ?_, ?_⟩
  · intro ls s1 hacc hload
    unfold loadEffect at hload
    rcases hh : ls.aidoc_history with _ | raw <;> rw [hh] at hload
    · rw [hacc] at hload
      simp at hload
      subst hload
      exact ⟨rfl, rfl⟩
    · by_cases hr : raw = ""
      · subst hr
        rw [hacc] at hload
        simp at hload
        subst hload
        exact ⟨rfl, rfl⟩
      · rcases hp : jsonParse raw with e | v
        · simp [hr, hp] at hload
        · simp [hr, hp, hacc] at hload
          subst hload
          exact ⟨rfl, rfl⟩
  · intro s
    exact ⟨rfl, rfl, rfl⟩
  · intro ls s1 hacc hload
    unfold loadEffect at hload
    rcases hh : ls.aidoc_history with _ | raw <;> rw [hh] at hload
    · rw [hacc] at hload
      simp at hload
      subst hload
      exact ⟨rfl, rfl⟩
    · by_cases hr : raw = ""
      · subst hr
        rw [hacc] at hload
        simp at hload
        subst hload
        exact ⟨rfl, rfl⟩
      · rcases hp : jsonParse raw with e | v
        · simp [hr, hp] at hload
        · simp [hr, hp, hacc] at hload
          subst hload
          exact ⟨rfl, rfl⟩

/-- Storage on a device where the disclaimer was accepted earlier. -/
def acceptedStorage : LocalStorage :=
  { aidoc_history := none, aidoc_disclaimer_accepted := some "true" }

/-- The state the startup effect produces from `acceptedStorage`. -/
def loadedAcceptedState : AppState :=
  { initialAppState acceptedStorage with hasAcceptedDisclaimer := true, showDisclaimer := false }

/-- Witness for C8 at concrete storages: first run, acceptance, and a
fresh session with the persisted flag. -/
theorem c8_disclaimer_gate_lifecycle_witness :
    ((initialAppState emptyStorage).showDisclaimer = true ∧
     (initialAppState emptyStorage).hasAcceptedDisclaimer = false) ∧
    ((handleAcceptDisclaimer (initialAppState emptyStorage)).storage.aidoc_disclaimer_accepted =
       some "true" ∧
     (handleAcceptDisclaimer (initialAppState emptyStorage)).showDisclaimer = false ∧
     (handleAcceptDisclaimer (initialAppState emptyStorage)).hasAcceptedDisclaimer = true) ∧
    (loadedAcceptedState.showDisclaimer = false ∧
     loadedAcceptedState.hasAcceptedDisclaimer = true) :=
  ⟨c8_disclaimer_gate_lifecycle.1 emptyStorage (initialAppState emptyStorage) rfl rfl,
   c8_disclaimer_gate_lifecycle.2.1 (initialAppState emptyStorage),
   c8_disclaimer_gate_lifecycle.2.2 acceptedStorage loadedAcceptedState rfl rfl⟩

/-- Truncating after appending an already-truncated tail is the same as
truncating once. -/
theorem take_append_take {α : Type} (A B : List α) (n : Nat) :
    (A ++ B.take n).take n = (A ++ B).take n := by
  rw [List.take_append_eq_append_take, List.take_append_eq_append_take, List.take_take,
    Nat.min_eq_left (Nat.sub_le n A.length)]

/-- What one successful submission does to an app state whose history is
an array: prepend the encoded new entry, slice to 10, persist. -/
theorem applySubmit_eq (s : AppState) (i : SubmitInput) (l : List Json)
    (hl : s.history = Json.arr l) (ht : jsTrim i.sym ≠ "") :
    applySubmit s i =
      { s with symptoms := i.sym,
               result := some i.data,
               history := Json.arr ((encodeEntry (entryOfInput i) :: l).take 10),
               isLoading := false,
               storage := { s.storage with
                 aidoc_history := some (jsonStringify (Json.arr ((encodeEntry (entryOfInput i) :: l).take 10))) } } := by
  simp [applySubmit, handleDiagnosis, ht, hl, jsonSpreadList, entryOfInput]

/-- Invariant of a run of successful submissions from any state whose
history is an array of at most 10 entries: the in-memory history is the
newest-first concatenation truncated to 10, and once at least one
submission happened the persisted value is its serialization. -/
theorem runSubmits_spec (inputs : List SubmitInput) :
    ∀ (s : AppState) (l : List Json), s.history = Json.arr l → l.length ≤ 10 →
    (∀ i ∈ inputs, jsTrim i.sym ≠ "") →
    (runSubmits s inputs).history =
      Json.arr (((inputs.map fun j => encodeEntry (entryOfInput j)).reverse ++ l).take 10) ∧
    (inputs ≠ [] →
      (runSubmits s inputs).storage.aidoc_history =
        some (jsonStringify (Json.arr
          (((inputs.map fun j => encodeEntry (entryOfInput j)).reverse ++ l).take 10)))) := by
  induction inputs with
  | nil =>
    intro s l hl hlen _
    refine ⟨?_, fun hne => absurd rfl hne⟩
    simp only [runSubmits, List.map_nil, List.reverse_nil, List.nil_append]
    rw [List.take_of_length_le hlen]
    exact hl
  | cons i rest ih =>
    intro s l hl hlen hv
    have ht : jsTrim i.sym ≠ "" := hv i (List.mem_cons_self i rest)
    have hv' : ∀ j ∈ rest, jsTrim j.sym ≠ "" := fun j hj => hv j (List.mem_cons_of_mem i hj)
    have happ := applySubmit_eq s i l hl ht
    have hl' : (applySubmit s i).history =
        Json.arr ((encodeEntry (entryOfInput i) :: l).take 10) := by rw [happ]
    have hlen' : ((encodeEntry (entryOfInput i) :: l).take 10).length ≤ 10 := by
      simp [List.length_take]
    have hst : (applySubmit s i).storage.aidoc_history =
        some (jsonStringify (Json.arr ((encodeEntry (entryOfInput i) :: l).take 10))) := by
      rw [happ]
    have key : ((rest.map fun j => encodeEntry (entryOfInput j)).reverse ++
        (encodeEntry (entryOfInput i) :: l).take 10).take 10 =
        (((i :: rest).map fun j => encodeEntry (entryOfInput j)).reverse ++ l).take 10 := by
      rw [take_append_take]
      congr 1
      simp [List.append_assoc]
    obtain ⟨ihh, ihst⟩ :=
      ih (applySubmit s i) ((encodeEntry (entryOfInput i) :: l).take 10) hl' hlen' hv'
    have hrun : runSubmits s (i :: rest) = runSubmits (applySubmit s i) rest := rfl
    constructor
    · rw [hrun, ihh, key]
    · intro _
      by_cases hrest : rest = []
      · subst hrest
        rw [hrun]
        simp only [runSubmits]
        rw [hst]
        congr 2
      · rw [hrun, ihst hrest, key]

/-- Claim C1: starting from an empty history, any sequence of accepted,
successful submissions keeps the in-memory and persisted history at no
more than 10 entries; each success prepends its new entry at index 0;
after ten or more successes the stored sequence is exactly the 10 most
recent entries, newest first; the persisted value is always the
serialization of the in-memory sequence. -/
theorem c1_history_capped_newest_first (inputs : List SubmitInput)
    (hv : ∀ i ∈ inputs, jsTrim i.sym ≠ "") :
    ((runSubmits (initialAppState emptyStorage) inputs).history =
      Json.arr ((inputs.map fun j => encodeEntry (entryOfInput j)).reverse.take 10)) ∧
    ((inputs.map fun j => encodeEntry (entryOfInput j)).reverse.take 10).length ≤ 10 ∧
    (inputs ≠ [] →
      (runSubmits (initialAppState emptyStorage) inputs).storage.aidoc_history =
        some (jsonStringify (Json.arr
          ((inputs.map fun j => encodeEntry (entryOfInput j)).reverse.take 10)))) ∧
    (10 ≤ inputs.length →
      ((inputs.map fun j => encodeEntry (entryOfInput j)).reverse.take 10).length = 10) ∧
    (∀ (s : AppState) (j : SubmitInput) (l : List Json), s.history = Json.arr l →
      jsTrim j.sym ≠ "" →
      (applySubmit s j).history = Json.arr (encodeEntry (entryOfInput j) :: l.take 9)) := by
  obtain ⟨h1, h2⟩ := runSubmits_spec inputs (initialAppState emptyStorage) [] rfl (by simp) hv
  refine ⟨?_, ?_, ?_, ?_, ?_⟩
  · simpa using h1
  · simp [List.length_take]
  · intro hne
    simpa using h2 hne
  · intro hN
    simp only [List.length_take, List.length_reverse, List.length_map]
    omega
  · intro s j l hl ht
    rw [applySubmit_eq s j l hl ht]
    simp

/-- Eleven concrete successful submissions, oldest first, for the C1
witness. -/
def demoInputs : List SubmitInput :=
  [{ sym := "s0", freshId := "i0", now := 0, data := Json.null },
   { sym := "s1", freshId := "i1", now := 1, data := Json.null },
   { sym := "s2", freshId := "i2", now := 2, data := Json.null },
   { sym := "s3", freshId := "i3", now := 3, data := Json.null },
   { sym := "s4", freshId := "i4", now := 4, data := Json.null },
   { sym := "s5", freshId := "i5", now := 5, data := Json.null },
   { sym := "s6", freshId := "i6", now := 6, data := Json.null },
   { sym := "s7", freshId := "i7", now := 7, data := Json.null },
   { sym := "s8", freshId := "i8", now := 8, data := Json.null },
   { sym := "s9", freshId := "i9", now := 9, data := Json.null },
   { sym := "s10", freshId := "i10", now := 10, data := Json.null }]

/-- The first of the eleven demo submissions. -/
def demoInput0 : SubmitInput := { sym := "s0", freshId := "i0", now := 0, data := Json.null }

/-- Witness for C1: after the eleven concrete submissions, memory and
storage hold exactly the 10 most recent entries newest-first, and the
first submission's entry sits at index 0 of a singleton history. -/
theorem c1_history_capped_newest_first_witness :
    ((runSubmits (initialAppState emptyStorage) demoInputs).history =
      Json.arr ((demoInputs.map fun j => encodeEntry (entryOfInput j)).reverse.take 10)) ∧
    ((demoInputs.map fun j => encodeEntry (entryOfInput j)).reverse.take 10).length = 10 ∧
    ((runSubmits (initialAppState emptyStorage) demoInputs).storage.aidoc_history =
      some (jsonStringify (Json.arr
        ((demoInputs.map fun j => encodeEntry (entryOfInput j)).reverse.take 10)))) ∧
    (applySubmit (initialAppState emptyStorage) demoInput0).history =
      Json.arr [encodeEntry (entryOfInput demoInput0)] :=
  ⟨(c1_history_capped_newest_first demoInputs (by decide)).1,
   (c1_history_capped_newest_first demoInputs (by decide)).2.2.2.1 (by decide),
   (c1_history_capped_newest_first demoInputs (by decide)).2.2.1 (by simp [demoInputs]),
   by simpa using
     (c1_history_capped_newest_first demoInputs (by decide)).2.2.2.2
       (initialAppState emptyStorage) demoInput0 [] rfl (by decide)⟩
